import Mathlib

/-!
# Verification of the jpgicc color-transform core (utils/jpgicc/jpgicc.c)

Shallow embedding of the color-transform and pixel-format negotiation
pipeline of `jpgicc.c`.  C `double` arithmetic is modelled by exact
rational arithmetic (`ℚ`); C `floor` is `Int.floor`; the narrowing cast
`(cmsUInt16Number)` is modelled explicitly where it matters.  Functions
that live in the lcms2 library rather than in `jpgicc.c` itself
(`cmsDesaturateLab`, `_cmsICCcolorSpace`, the CLUT grid sweep and the
bit-packing macros of `lcms2.h`) are modelled from the specification and
say so in their doc comments.
-/

/-- CIE Lab color, the `cmsCIELab` struct: `double` channels modelled as `ℚ`. -/
structure cmsCIELab where
  L : ℚ
  a : ℚ
  b : ℚ
  deriving Repr, DecidableEq

/-- One ITU T.42 fax sample: three 16-bit channels (`cmsUInt16Number In[3]`). -/
structure FaxSample where
  L16 : ℕ
  a16 : ℕ
  b16 : ℕ
  deriving Repr, DecidableEq

/-- `ITU2Lab` (jpgicc.c lines 154-160): decode an ITU fax sample into
floating-point Lab.  `Lab->L = In[0] / 655.35`,
`Lab->a = 170.*(In[1] - 32768.)/65535.`, `Lab->b = 200.*(In[2] - 24576.)/65535.`. -/
def ITU2Lab (In : FaxSample) : cmsCIELab :=
  { L := (In.L16 : ℚ) / (655.35 : ℚ)
    a := 170 * ((In.a16 : ℚ) - 32768) / 65535
    b := 200 * ((In.b16 : ℚ) - 24576) / 65535 }

/-- The three `floor` results computed by `Lab2ITU` (jpgicc.c lines 162-168)
before the narrowing cast to `cmsUInt16Number`:
`floor((L/100.)*65535.)`, `floor((a/170.)*65535. + 32768.)`,
`floor((b/200.)*65535. + 24576.)`. -/
def Lab2ITUfloor (Lab : cmsCIELab) : ℤ × ℤ × ℤ :=
  (Int.floor (Lab.L / 100 * 65535),
   Int.floor (Lab.a / 170 * 65535 + 32768),
   Int.floor (Lab.b / 200 * 65535 + 24576))

/-- `Lab2ITU` (jpgicc.c lines 162-168): the floors of `Lab2ITUfloor`
followed by the narrowing conversion to a 16-bit unsigned sample,
modelled as reduction modulo 2^16. -/
def Lab2ITU (Lab : cmsCIELab) : FaxSample :=
  { L16 := ((Lab2ITUfloor Lab).1 % 65536).toNat
    a16 := ((Lab2ITUfloor Lab).2.1 % 65536).toNat
    b16 := ((Lab2ITUfloor Lab).2.2 % 65536).toNat }

/-- The decode formulas exactly as the specification words them (§4.3):
`L = L16/655.35; a = 170·(a16−32768)/65535; b = 200·(b16−24576)/65535`. -/
def specFaxDecode (s : FaxSample) : cmsCIELab :=
  { L := (s.L16 : ℚ) / 655.35
    a := 170 * ((s.a16 : ℚ) - 32768) / 65535
    b := 200 * ((s.b16 : ℚ) - 24576) / 65535 }

/-- The encode formulas exactly as the specification words them (§4.3):
`L16 = floor((L/100)·65535); a16 = floor((a/170)·65535 + 32768);
b16 = floor((b/200)·65535 + 24576)`, floor truncating toward negative
infinity. -/
def specFaxEncode (Lab : cmsCIELab) : ℤ × ℤ × ℤ :=
  (Int.floor (Lab.L / 100 * 65535),
   Int.floor (Lab.a / 170 * 65535 + 32768),
   Int.floor (Lab.b / 200 * 65535 + 24576))

/-- C4: `ITU2Lab` computes exactly the spec's decode formulas, `Lab2ITU`
computes exactly the spec's encode formulas (before the 16-bit narrowing),
and the encode really truncates toward negative infinity rather than
rounding to nearest: at `L = 0.09` the scaled value is `58.9815`, the code
produces `58` where round-to-nearest would produce `59`. -/
theorem jpgicc_fax_codec_formulas :
    (∀ s : FaxSample, ITU2Lab s = specFaxDecode s) ∧
    (∀ Lab : cmsCIELab, Lab2ITUfloor Lab = specFaxEncode Lab) ∧
    ((Lab2ITUfloor ⟨9/100, 0, 0⟩).1 = 58 ∧
      round ((9 : ℚ)/100 / 100 * 65535) = 59) := by
  refine ⟨fun s => rfl, fun Lab => rfl, ?_, ?_⟩
  · show Int.floor ((9 : ℚ)/100 / 100 * 65535 : ℚ) = 58
    norm_num
  · rw [round_eq]
    norm_num

/-- Shared range fact: inside the encodable envelope (`L ∈ [0,100]`,
`a ∈ [-85,85]`, `b ∈ [-75,125]`, the ITU T.42 ranges from jpgicc.c lines
146-148), each of the three floors computed by `Lab2ITU` lies in
`[0, 65535]`. -/
theorem lab2ITUfloor_range (Lab : cmsCIELab)
    (hL0 : 0 ≤ Lab.L) (hL1 : Lab.L ≤ 100)
    (ha0 : -85 ≤ Lab.a) (ha1 : Lab.a ≤ 85)
    (hb0 : -75 ≤ Lab.b) (hb1 : Lab.b ≤ 125) :
    (0 ≤ (Lab2ITUfloor Lab).1 ∧ (Lab2ITUfloor Lab).1 ≤ 65535) ∧
    (0 ≤ (Lab2ITUfloor Lab).2.1 ∧ (Lab2ITUfloor Lab).2.1 ≤ 65535) ∧
    (0 ≤ (Lab2ITUfloor Lab).2.2 ∧ (Lab2ITUfloor Lab).2.2 ≤ 65535) := by
  obtain ⟨L, a, b⟩ := Lab
  dsimp only [Lab2ITUfloor] at *
  refine ⟨⟨?_, ?_⟩, ⟨?_, ?_⟩, ⟨?_, ?_⟩⟩
  · exact Int.le_floor.mpr (by push_cast; linarith)
  · have h : Int.floor (L / 100 * 65535 : ℚ) < 65536 :=
      Int.floor_lt.mpr (by push_cast; linarith)
    omega
  · exact Int.le_floor.mpr (by push_cast; linarith)
  · have h : Int.floor (a / 170 * 65535 + 32768 : ℚ) < 65536 :=
      Int.floor_lt.mpr (by push_cast; linarith)
    omega
  · exact Int.le_floor.mpr (by push_cast; linarith)
  · have h : Int.floor (b / 200 * 65535 + 24576 : ℚ) < 65536 :=
      Int.floor_lt.mpr (by push_cast; linarith)
    omega

/-- Casting helper: for `0 ≤ n ≤ 65535` the modelled 16-bit narrowing is the
identity, read back into `ℚ`. -/
theorem toNatEmod_cast (n : ℤ) (h0 : 0 ≤ n) (h1 : n ≤ 65535) :
    (((n % 65536).toNat : ℚ)) = (n : ℚ) := by
  have h : ((n % 65536).toNat : ℤ) = n := by omega
  exact_mod_cast congrArg (fun z : ℤ => (z : ℚ)) h

/-- C10: inside the encodable envelope every floor computed by `Lab2ITU`
already lies in `[0, 65535]`, so the narrowing conversion to a 16-bit
sample never wraps modulo 2^16 and is value-preserving. -/
theorem jpgicc_encode_no_wrap (Lab : cmsCIELab)
    (hL0 : 0 ≤ Lab.L) (hL1 : Lab.L ≤ 100)
    (ha0 : -85 ≤ Lab.a) (ha1 : Lab.a ≤ 85)
    (hb0 : -75 ≤ Lab.b) (hb1 : Lab.b ≤ 125) :
    (0 ≤ (Lab2ITUfloor Lab).1 ∧ (Lab2ITUfloor Lab).1 ≤ 65535) ∧
    (0 ≤ (Lab2ITUfloor Lab).2.1 ∧ (Lab2ITUfloor Lab).2.1 ≤ 65535) ∧
    (0 ≤ (Lab2ITUfloor Lab).2.2 ∧ (Lab2ITUfloor Lab).2.2 ≤ 65535) ∧
    ((Lab2ITU Lab).L16 : ℤ) = (Lab2ITUfloor Lab).1 ∧
    ((Lab2ITU Lab).a16 : ℤ) = (Lab2ITUfloor Lab).2.1 ∧
    ((Lab2ITU Lab).b16 : ℤ) = (Lab2ITUfloor Lab).2.2 := by
  obtain ⟨⟨h1, h2⟩, ⟨h3, h4⟩, h5, h6⟩ :=
    lab2ITUfloor_range Lab hL0 hL1 ha0 ha1 hb0 hb1
  refine ⟨⟨h1, h2⟩, ⟨h3, h4⟩, ⟨h5, h6⟩, ?_, ?_, ?_⟩ <;>
    simp only [Lab2ITU] <;> omega

/-- Witness for C10 at the concrete envelope point `(50, 0, 0)`. -/
theorem jpgicc_encode_no_wrap_witness :
    ((0:ℚ) ≤ 50 ∧ (50:ℚ) ≤ 100 ∧ (-85:ℚ) ≤ 0 ∧ (0:ℚ) ≤ 85 ∧
      (-75:ℚ) ≤ 0 ∧ (0:ℚ) ≤ 125) ∧
    (((0 ≤ (Lab2ITUfloor ⟨50, 0, 0⟩).1 ∧ (Lab2ITUfloor ⟨50, 0, 0⟩).1 ≤ 65535) ∧
      (0 ≤ (Lab2ITUfloor ⟨50, 0, 0⟩).2.1 ∧ (Lab2ITUfloor ⟨50, 0, 0⟩).2.1 ≤ 65535) ∧
      (0 ≤ (Lab2ITUfloor ⟨50, 0, 0⟩).2.2 ∧ (Lab2ITUfloor ⟨50, 0, 0⟩).2.2 ≤ 65535) ∧
      ((Lab2ITU ⟨50, 0, 0⟩).L16 : ℤ) = (Lab2ITUfloor ⟨50, 0, 0⟩).1 ∧
      ((Lab2ITU ⟨50, 0, 0⟩).a16 : ℤ) = (Lab2ITUfloor ⟨50, 0, 0⟩).2.1 ∧
      ((Lab2ITU ⟨50, 0, 0⟩).b16 : ℤ) = (Lab2ITUfloor ⟨50, 0, 0⟩).2.2)) :=
  ⟨by norm_num,
   jpgicc_encode_no_wrap ⟨50, 0, 0⟩ (by norm_num) (by norm_num) (by norm_num)
     (by norm_num) (by norm_num) (by norm_num)⟩

/-- C5: inside the encodable envelope, encode-then-decode returns each
channel to within `1/65535` of its full scale (100 for `L`, 170 for `a`,
200 for `b`). -/
theorem jpgicc_fax_roundtrip (Lab : cmsCIELab)
    (hL0 : 0 ≤ Lab.L) (hL1 : Lab.L ≤ 100)
    (ha0 : -85 ≤ Lab.a) (ha1 : Lab.a ≤ 85)
    (hb0 : -75 ≤ Lab.b) (hb1 : Lab.b ≤ 125) :
    |(ITU2Lab (Lab2ITU Lab)).L - Lab.L| ≤ 100 / 65535 ∧
    |(ITU2Lab (Lab2ITU Lab)).a - Lab.a| ≤ 170 / 65535 ∧
    |(ITU2Lab (Lab2ITU Lab)).b - Lab.b| ≤ 200 / 65535 := by
  obtain ⟨⟨h1, h2⟩, ⟨h3, h4⟩, h5, h6⟩ :=
    lab2ITUfloor_range Lab hL0 hL1 ha0 ha1 hb0 hb1
  obtain ⟨L, a, b⟩ := Lab
  dsimp only [Lab2ITUfloor] at h1 h2 h3 h4 h5 h6
  dsimp only [ITU2Lab, Lab2ITU, Lab2ITUfloor] at *
  rw [toNatEmod_cast _ h1 h2, toNatEmod_cast _ h3 h4, toNatEmod_cast _ h5 h6,
    show (655.35 : ℚ) = 13107 / 20 from by norm_num]
  have fL1 : ((Int.floor (L / 100 * 65535 : ℚ) : ℚ)) ≤ L / 100 * 65535 :=
    Int.floor_le _
  have fL2 : L / 100 * 65535 - 1 < ((Int.floor (L / 100 * 65535 : ℚ) : ℚ)) :=
    Int.sub_one_lt_floor _
  have fa1 : ((Int.floor (a / 170 * 65535 + 32768 : ℚ) : ℚ)) ≤ a / 170 * 65535 + 32768 :=
    Int.floor_le _
  have fa2 : a / 170 * 65535 + 32768 - 1 < ((Int.floor (a / 170 * 65535 + 32768 : ℚ) : ℚ)) :=
    Int.sub_one_lt_floor _
  have fb1 : ((Int.floor (b / 200 * 65535 + 24576 : ℚ) : ℚ)) ≤ b / 200 * 65535 + 24576 :=
    Int.floor_le _
  have fb2 : b / 200 * 65535 + 24576 - 1 < ((Int.floor (b / 200 * 65535 + 24576 : ℚ) : ℚ)) :=
    Int.sub_one_lt_floor _
  refine ⟨?_, ?_, ?_⟩ <;> rw [abs_le] <;> constructor <;> linarith

/-- Witness for C5 at the concrete envelope point `(50, 0, 0)`. -/
theorem jpgicc_fax_roundtrip_witness :
    ((0:ℚ) ≤ 50 ∧ (50:ℚ) ≤ 100 ∧ (-85:ℚ) ≤ 0 ∧ (0:ℚ) ≤ 85 ∧
      (-75:ℚ) ≤ 0 ∧ (0:ℚ) ≤ 125) ∧
    (|(ITU2Lab (Lab2ITU ⟨50, 0, 0⟩)).L - (50:ℚ)| ≤ 100 / 65535 ∧
      |(ITU2Lab (Lab2ITU ⟨50, 0, 0⟩)).a - (0:ℚ)| ≤ 170 / 65535 ∧
      |(ITU2Lab (Lab2ITU ⟨50, 0, 0⟩)).b - (0:ℚ)| ≤ 200 / 65535) :=
  ⟨by norm_num,
   jpgicc_fax_roundtrip ⟨50, 0, 0⟩ (by norm_num) (by norm_num) (by norm_num)
     (by norm_num) (by norm_num) (by norm_num)⟩

/-- The radial desaturation factor: the largest scale `t ∈ (0,1]` that brings
the chroma vector `(a*, b*)` inside the rectangle, one candidate per possibly
violated edge. -/
def desatFactor (Lab : cmsCIELab) (amax amin bmax bmin : ℚ) : ℚ :=
  min (min (if amax < Lab.a then amax / Lab.a else 1)
           (if Lab.a < amin then amin / Lab.a else 1))
      (min (if bmax < Lab.b then bmax / Lab.b else 1)
           (if Lab.b < bmin then bmin / Lab.b else 1))

/-- Modelled from the spec: `cmsDesaturateLab` is lcms2 library code, not part
of src/utils/jpgicc/jpgicc.c.  Spec §4.2: clips `a*`/`b*` into the rectangle
`[aMin,aMax] × [bMin,bMax]` while preserving hue angle as closely as possible,
leaves `L` unclipped; deterministic and total; boundary inputs exactly on the
envelope edge are left unchanged.  Out-of-envelope chroma is scaled radially
toward the origin (exactly hue-preserving) onto the boundary.  Called from
`PCS2ITU` (jpgicc.c line 186) with argument order `(amax, amin, bmax, bmin)`. -/
def cmsDesaturateLab (Lab : cmsCIELab) (amax amin bmax bmin : ℚ) : cmsCIELab :=
  if amin ≤ Lab.a ∧ Lab.a ≤ amax ∧ bmin ≤ Lab.b ∧ Lab.b ≤ bmax then Lab
  else { L := Lab.L
         a := desatFactor Lab amax amin bmax bmin * Lab.a
         b := desatFactor Lab amax amin bmax bmin * Lab.b }

/-- The gamut step of the inverse sampler `PCS2ITU` (jpgicc.c line 186):
`cmsDesaturateLab(&Lab, 85, -85, 125, -75)`. -/
def PCS2ITUdesaturate (Lab : cmsCIELab) : cmsCIELab :=
  cmsDesaturateLab Lab 85 (-85) 125 (-75)

theorem desatFactor_pos (Lab : cmsCIELab) (amax amin bmax bmin : ℚ)
    (h1 : 0 < amax) (h2 : amin < 0) (h3 : 0 < bmax) (h4 : bmin < 0) :
    0 < desatFactor Lab amax amin bmax bmin := by
  unfold desatFactor
  refine lt_min (lt_min ?_ ?_) (lt_min ?_ ?_)
  · split_ifs with h
    · exact div_pos h1 (h1.trans h)
    · exact one_pos
  · split_ifs with h
    · exact div_pos_iff.mpr (Or.inr ⟨h2, h.trans h2⟩)
    · exact one_pos
  · split_ifs with h
    · exact div_pos h3 (h3.trans h)
    · exact one_pos
  · split_ifs with h
    · exact div_pos_iff.mpr (Or.inr ⟨h4, h.trans h4⟩)
    · exact one_pos

theorem desatFactor_le_one (Lab : cmsCIELab) (amax amin bmax bmin : ℚ)
    (h1 : 0 < amax) :
    desatFactor Lab amax amin bmax bmin ≤ 1 := by
  unfold desatFactor
  refine le_trans (min_le_left _ _) (le_trans (min_le_left _ _) ?_)
  split_ifs with h
  · exact (div_le_one (h1.trans h)).mpr h.le
  · exact le_refl 1

theorem desatFactor_le_amax (Lab : cmsCIELab) (amax amin bmax bmin : ℚ)
    (h : amax < Lab.a) :
    desatFactor Lab amax amin bmax bmin ≤ amax / Lab.a := by
  refine le_trans (min_le_left _ _) (le_trans (min_le_left _ _) ?_)
  rw [if_pos h]

theorem desatFactor_le_amin (Lab : cmsCIELab) (amax amin bmax bmin : ℚ)
    (h : Lab.a < amin) :
    desatFactor Lab amax amin bmax bmin ≤ amin / Lab.a := by
  refine le_trans (min_le_left _ _) (le_trans (min_le_right _ _) ?_)
  rw [if_pos h]

theorem desatFactor_le_bmax (Lab : cmsCIELab) (amax amin bmax bmin : ℚ)
    (h : bmax < Lab.b) :
    desatFactor Lab amax amin bmax bmin ≤ bmax / Lab.b := by
  refine le_trans (min_le_right _ _) (le_trans (min_le_left _ _) ?_)
  rw [if_pos h]

theorem desatFactor_le_bmin (Lab : cmsCIELab) (amax amin bmax bmin : ℚ)
    (h : Lab.b < bmin) :
    desatFactor Lab amax amin bmax bmin ≤ bmin / Lab.b := by
  refine le_trans (min_le_right _ _) (le_trans (min_le_right _ _) ?_)
  rw [if_pos h]

/-- One scaled channel stays in its band: if `0 < t ≤ 1` undershoots every
violated edge factor, then `t * x` lies in `[clo, chi]`. -/
theorem desat_channel_bound (t x chi clo : ℚ) (hchi : 0 < chi) (hclo : clo < 0)
    (ht0 : 0 < t) (ht1 : t ≤ 1)
    (hhi : chi < x → t ≤ chi / x) (hlo : x < clo → t ≤ clo / x) :
    clo ≤ t * x ∧ t * x ≤ chi := by
  rcases lt_trichotomy x 0 with hx | hx | hx
  · constructor
    · rcases lt_or_le x clo with h | h
      · exact (le_div_iff_of_neg hx).mp (hlo h)
      · nlinarith [mul_nonneg (by linarith : (0:ℚ) ≤ 1 - t) (by linarith : (0:ℚ) ≤ -x)]
    · nlinarith [mul_pos ht0 (by linarith : (0:ℚ) < -x)]
  · rw [hx, mul_zero]
    exact ⟨hclo.le, hchi.le⟩
  · constructor
    · nlinarith [mul_pos ht0 hx]
    · rcases lt_or_le chi x with h | h
      · exact (le_div_iff₀ hx).mp (hhi h)
      · nlinarith [mul_nonneg (by linarith : (0:ℚ) ≤ 1 - t) hx.le]

/-- C6: for every Lab input the `PCS2ITU` desaturation lands in the ITU T.42
envelope `a ∈ [-85,85]`, `b ∈ [-75,125]`, and every input already inside the
envelope (including exactly on its edges) is returned unchanged. -/
theorem jpgicc_desaturate_envelope (Lab : cmsCIELab) :
    (-85 ≤ (PCS2ITUdesaturate Lab).a ∧ (PCS2ITUdesaturate Lab).a ≤ 85 ∧
     -75 ≤ (PCS2ITUdesaturate Lab).b ∧ (PCS2ITUdesaturate Lab).b ≤ 125) ∧
    (-85 ≤ Lab.a → Lab.a ≤ 85 → -75 ≤ Lab.b → Lab.b ≤ 125 →
      PCS2ITUdesaturate Lab = Lab) := by
  unfold PCS2ITUdesaturate cmsDesaturateLab
  split_ifs with h
  · exact ⟨⟨h.1, h.2.1, h.2.2.1, h.2.2.2⟩, fun _ _ _ _ => rfl⟩
  · have hpos := desatFactor_pos Lab 85 (-85) 125 (-75)
      (by norm_num) (by norm_num) (by norm_num) (by norm_num)
    have hone := desatFactor_le_one Lab 85 (-85) 125 (-75) (by norm_num)
    have ha := desat_channel_bound (desatFactor Lab 85 (-85) 125 (-75)) Lab.a
      85 (-85) (by norm_num) (by norm_num) hpos hone
      (fun hh => desatFactor_le_amax Lab 85 (-85) 125 (-75) hh)
      (fun hh => desatFactor_le_amin Lab 85 (-85) 125 (-75) hh)
    have hb := desat_channel_bound (desatFactor Lab 85 (-85) 125 (-75)) Lab.b
      125 (-75) (by norm_num) (by norm_num) hpos hone
      (fun hh => desatFactor_le_bmax Lab 85 (-85) 125 (-75) hh)
      (fun hh => desatFactor_le_bmin Lab 85 (-85) 125 (-75) hh)
    refine ⟨⟨ha.1, ha.2, hb.1, hb.2⟩, ?_⟩
    intro h1 h2 h3 h4
    exact absurd ⟨h1, h2, h3, h4⟩ h

/-- Witness for C6 at the edge point `(50, 85, 125)`: it satisfies the
inside-envelope hypotheses and is returned unchanged, within bounds. -/
theorem jpgicc_desaturate_envelope_witness :
    ((-85 ≤ (PCS2ITUdesaturate ⟨50, 85, 125⟩).a ∧
      (PCS2ITUdesaturate ⟨50, 85, 125⟩).a ≤ 85 ∧
      -75 ≤ (PCS2ITUdesaturate ⟨50, 85, 125⟩).b ∧
      (PCS2ITUdesaturate ⟨50, 85, 125⟩).b ≤ 125) ∧
     ((-85 : ℚ) ≤ 85 ∧ (85 : ℚ) ≤ 85 ∧ (-75 : ℚ) ≤ 125 ∧ (125 : ℚ) ≤ 125) ∧
     PCS2ITUdesaturate ⟨50, 85, 125⟩ = ⟨50, 85, 125⟩) :=
  ⟨(jpgicc_desaturate_envelope ⟨50, 85, 125⟩).1,
   ⟨by norm_num, by norm_num, by norm_num, by norm_num⟩,
   (jpgicc_desaturate_envelope ⟨50, 85, 125⟩).2
     (by norm_num) (by norm_num) (by norm_num) (by norm_num)⟩

/-- Modelled from the spec: the pixel-type codes of `lcms2.h` (library header,
not under src/).  Only the codes `jpgicc.c` mentions. -/
def PT_GRAY : ℕ := 3

def PT_RGB : ℕ := 4

def PT_CMY : ℕ := 5

def PT_CMYK : ℕ := 6

def PT_YCbCr : ℕ := 7

def PT_YUV : ℕ := 8

def PT_Lab : ℕ := 10

/-- `JPEG_APP0` of jpeglib: marker code 0xE0; `SetITUFax` writes marker
`JPEG_APP0 + 1` (APP1). -/
def JPEG_APP0 : ℕ := 0xE0

/-- The bytes of the C string literal `"G3FAX\x00\0x07\xCA\x00\xC8"` in
`SetITUFax` (jpgicc.c line 135), per C lexing: `G 3 F A X`, the hex escape
`\x00`, then `\0x07` — which is NOT the hex escape `\x07`: `\0` is the octal
escape for 0x00 (the following `x` is not an octal digit, so the escape ends
there) and `x`, `0`, `7` are the literal characters 0x78 0x30 0x37 — then the
hex escapes `\xCA`, `\x00`, `\xC8`, and the implicit terminating 0x00. -/
def SetITUFaxMarkerArray : List ℕ :=
  [0x47, 0x33, 0x46, 0x41, 0x58, 0x00,
   0x00, 0x78, 0x30, 0x37,
   0xCA, 0x00, 0xC8, 0x00]

/-- `SetITUFax` (jpgicc.c lines 133-138):
`jpeg_write_marker(cinfo, JPEG_APP0 + 1, Marker, 10)` writes the first 10
bytes of the array. -/
def SetITUFaxWritten : List ℕ := SetITUFaxMarkerArray.take 10

/-- The fax markers emitted when scanline output starts (`DoTransform`,
jpgicc.c lines 676-677): exactly one APP1 marker when the output color space
is `PT_Lab`, none otherwise. -/
def DoTransformFaxMarkers (OutputColorSpace : ℕ) : List (ℕ × List ℕ) :=
  if OutputColorSpace = PT_Lab then [(JPEG_APP0 + 1, SetITUFaxWritten)] else []

/-- The APP1 payload the claim — and the code's own comment block (jpgicc.c
lines 94-108) — prescribes: the 6-byte identifier `G3FAX\0`, version
`0x07 0xCA`, resolution `0x00 0xC8`. -/
def G3FAXStandardPayload : List ℕ :=
  [0x47, 0x33, 0x46, 0x41, 0x58, 0x00, 0x07, 0xCA, 0x00, 0xC8]

/-- C1: code-bug evidence.  When the output color space is the fax Lab
encoding, `DoTransform` emits exactly one APP1 marker of payload length 10,
but because of the `\0x07` escape typo the payload is
`47 33 46 41 58 00 00 78 30 37` (`G3FAX\0` followed by `0x00 'x' '0' '7'`),
not the `G3FAX\0 07 CA 00 C8` that the claim and the code's own comment
require. -/
theorem jpgicc_fax_marker_bytes :
    DoTransformFaxMarkers PT_Lab = [(JPEG_APP0 + 1, SetITUFaxWritten)] ∧
    DoTransformFaxMarkers PT_RGB = [] ∧
    SetITUFaxWritten.length = 10 ∧
    SetITUFaxWritten = [0x47, 0x33, 0x46, 0x41, 0x58, 0x00, 0x00, 0x78, 0x30, 0x37] ∧
    SetITUFaxWritten ≠ G3FAXStandardPayload := by
  refine ⟨rfl, rfl, rfl, rfl, ?_⟩
  decide

/-- The transform flags of lcms that `TransformImage` can set. -/
inductive TransformFlag
  | noOptimize
  | highResPrecalc
  | lowResPrecalc
  | blackPointCompensation
  | gamutCheck
  | softProofing
  deriving DecidableEq, Repr

/-- `HandleSwitches`, case `'c'`/`'C'` (jpgicc.c lines 983-988): the parsed
mode is accepted unless `PrecalcMode < 0 || PrecalcMode > 2`, in which case
the program aborts with `Unknown precalc mode`. -/
def HandleSwitchesPrecalcAccepts (m : ℤ) : Bool :=
  !(decide (m < 0) || decide (m > 2))

/-- The flag contributed by the precalculation mode in `TransformImage`
(jpgicc.c lines 727-733): `case 0` adds `cmsFLAGS_NOOPTIMIZE`, `case 2` adds
`cmsFLAGS_HIGHRESPRECALC`, `case 3` adds `cmsFLAGS_LOWRESPRECALC`, default
adds nothing. -/
def TransformImagePrecalcFlags (m : ℤ) : List TransformFlag :=
  if m = 0 then [.noOptimize]
  else if m = 2 then [.highResPrecalc]
  else if m = 3 then [.lowResPrecalc]
  else []

/-- The modes the help text documents (jpgicc.c line 862):
`-c<0,1,2,3> - Precalculates transform (0=Off, 1=Normal, 2=Hi-res, 3=LoRes)`. -/
def HelpPrecalcModes : List ℤ := [0, 1, 2, 3]

/-- C2: code-bug evidence.  Mode 3 (LoRes) is listed in the help text and has
a flag mapping in `TransformImage` (`cmsFLAGS_LOWRESPRECALC`), yet the
configuration layer rejects it: `HandleSwitches` aborts on any mode above 2.
Modes 0, 1, 2 are accepted with their claimed flags. -/
theorem jpgicc_precalc_mode3_rejected :
    HandleSwitchesPrecalcAccepts 3 = false ∧
    (3 : ℤ) ∈ HelpPrecalcModes ∧
    TransformImagePrecalcFlags 3 = [TransformFlag.lowResPrecalc] ∧
    HandleSwitchesPrecalcAccepts 0 = true ∧
    TransformImagePrecalcFlags 0 = [TransformFlag.noOptimize] ∧
    HandleSwitchesPrecalcAccepts 1 = true ∧
    TransformImagePrecalcFlags 1 = [] ∧
    HandleSwitchesPrecalcAccepts 2 = true ∧
    TransformImagePrecalcFlags 2 = [TransformFlag.highResPrecalc] := by
  decide

/-- The pipeline tag a virtual profile is written under (`cmsSigAToB0Tag` for
the forward profile, `cmsSigBToA0Tag` for the inverse one). -/
inductive IccTagSig
  | AToB0
  | BToA0
  deriving DecidableEq, Repr

/-- ICC device classes: `cmsSigColorSpaceClass` is the "color space
conversion" class, `cmsSigLinkClass` the device-link class. -/
inductive IccProfileClass
  | colorSpaceClass
  | linkClass
  | inputClass
  | outputClass
  deriving DecidableEq, Repr

/-- ICC data color space signatures used here. -/
inductive IccColorSpace
  | labData
  | rgbData
  | grayData
  | cmykData
  | cmyData
  | yCbCrData
  | yuvData
  deriving DecidableEq, Repr

/-- Modelled from the spec: the CLUT grid sweep of
`cmsStageSampleCLut16bit` / `cmsSample3DGrid` (lcms2 library code, not under
src/) calls the sampler once for every node `(i, j, k)` of the `n`-per-axis
cubic grid covering the 3-D input cube (spec §4.4). -/
def gridNodes (n : ℕ) : List (ℕ × ℕ × ℕ) :=
  (List.range n).flatMap fun i =>
    (List.range n).flatMap fun j =>
      (List.range n).map fun k => (i, j, k)

/-- `GRID_POINTS` (jpgicc.c line 178). -/
def GRID_POINTS : ℕ := 33

/-- The observable structure of a synthesized virtual profile: the tag its
pipeline is written under, the declared color space, PCS and device class,
and the CLUT stage geometry (`cmsStageAllocCLut16bit(0, GRID_POINTS, 3, 3, NULL)`
plus the node sweep). -/
structure VirtualProfile where
  tag : IccTagSig
  colorSpace : IccColorSpace
  pcs : IccColorSpace
  deviceClass : IccProfileClass
  clutInputChannels : ℕ
  clutOutputChannels : ℕ
  clutNodes : List (ℕ × ℕ × ℕ)
  deriving Repr

/-- `CreateITU2PCS_ICC` (jpgicc.c lines 203-232): the forward virtual input
profile.  `cmsStageAllocCLut16bit(0, GRID_POINTS, 3, 3, NULL)`, sampled with
`ITU2PCS`, written as `cmsSigAToB0Tag`; then `cmsSetColorSpace(cmsSigLabData)`,
`cmsSetPCS(cmsSigLabData)`, `cmsSetDeviceClass(cmsSigColorSpaceClass)`. -/
def CreateITU2PCS_ICC : VirtualProfile :=
  { tag := .AToB0
    colorSpace := .labData
    pcs := .labData
    deviceClass := .colorSpaceClass
    clutInputChannels := 3
    clutOutputChannels := 3
    clutNodes := gridNodes GRID_POINTS }

/-- `CreatePCS2ITU_ICC` (jpgicc.c lines 236-266): the inverse virtual output
profile.  `cmsStageAllocCLut16bit(0, GRID_POINTS, 3, 3, NULL)`, sampled with
`PCS2ITU`, written as `cmsSigBToA0Tag`; then `cmsSetColorSpace(cmsSigLabData)`,
`cmsSetPCS(cmsSigLabData)`, and — line 261 — `cmsSetDeviceClass(cmsSigColorSpaceClass)`,
the same class as the forward profile, not a device-link class. -/
def CreatePCS2ITU_ICC : VirtualProfile :=
  { tag := .BToA0
    colorSpace := .labData
    pcs := .labData
    deviceClass := .colorSpaceClass
    clutInputChannels := 3
    clutOutputChannels := 3
    clutNodes := gridNodes GRID_POINTS }

theorem length_bind_const {α β : Type} (l : List α) (f : α → List β) (m : ℕ)
    (h : ∀ a ∈ l, (f a).length = m) : (l.flatMap f).length = l.length * m := by
  induction l with
  | nil => simp
  | cons x xs ih =>
    simp only [List.flatMap_cons, List.length_append, List.length_cons]
    rw [h x (List.mem_cons_self x xs), ih fun a ha => h a (List.mem_cons_of_mem x ha)]
    ring

theorem length_gridNodes (n : ℕ) : (gridNodes n).length = n ^ 3 := by
  unfold gridNodes
  rw [length_bind_const _ _ (n * n) fun i _ => by
    rw [length_bind_const _ _ n fun j _ => by simp]
    simp]
  simp [pow_succ]
  ring

/-- C3 counterexample: the claim asserts the inverse virtual profile is
assembled with a "device link"-style device class, but `CreatePCS2ITU_ICC`
sets `cmsSigColorSpaceClass` (jpgicc.c line 261), which is not the link
class. -/
theorem jpgicc_inverse_profile_not_link :
    CreatePCS2ITU_ICC.deviceClass = IccProfileClass.colorSpaceClass ∧
    IccProfileClass.colorSpaceClass ≠ IccProfileClass.linkClass := by
  exact ⟨rfl, by decide⟩

/-- C3 amended: both virtual profiles declare color space Lab and PCS Lab and
are built from a 3-in/3-out CLUT sampled at all 33³ grid nodes; the forward
profile (AToB0) and the inverse profile (BToA0) both carry the "color space"
device class. -/
theorem jpgicc_virtual_profile_shapes :
    CreateITU2PCS_ICC.colorSpace = IccColorSpace.labData ∧
    CreateITU2PCS_ICC.pcs = IccColorSpace.labData ∧
    CreateITU2PCS_ICC.deviceClass = IccProfileClass.colorSpaceClass ∧
    CreateITU2PCS_ICC.tag = IccTagSig.AToB0 ∧
    CreatePCS2ITU_ICC.colorSpace = IccColorSpace.labData ∧
    CreatePCS2ITU_ICC.pcs = IccColorSpace.labData ∧
    CreatePCS2ITU_ICC.deviceClass = IccProfileClass.colorSpaceClass ∧
    CreatePCS2ITU_ICC.tag = IccTagSig.BToA0 ∧
    CreateITU2PCS_ICC.clutInputChannels = 3 ∧
    CreateITU2PCS_ICC.clutOutputChannels = 3 ∧
    CreatePCS2ITU_ICC.clutInputChannels = 3 ∧
    CreatePCS2ITU_ICC.clutOutputChannels = 3 ∧
    CreateITU2PCS_ICC.clutNodes.length = GRID_POINTS ^ 3 ∧
    CreatePCS2ITU_ICC.clutNodes.length = GRID_POINTS ^ 3 ∧
    GRID_POINTS ^ 3 = 35937 := by
  refine ⟨rfl, rfl, rfl, rfl, rfl, rfl, rfl, rfl, rfl, rfl, rfl, rfl,
    length_gridNodes GRID_POINTS, length_gridNodes GRID_POINTS, by norm_num [GRID_POINTS]⟩

/-- One saved JPEG marker: its marker code and payload bytes
(`jpeg_saved_marker_ptr`: `marker`, `data`, `data_length`). -/
structure SavedMarker where
  marker : ℕ
  data : List ℕ
  deriving DecidableEq, Repr

/-- The compressor fields consulted by the marker copy step. -/
structure DestWriterFlags where
  writeJFIFheader : Bool
  writeAdobeMarker : Bool
  deriving DecidableEq, Repr

/-- The duplicate-JFIF test of `jcopy_markers_execute` (jpgicc.c lines
543-551): marker is APP0, `data_length >= 5`, and the payload starts with
`J F I F 0x00`. -/
def isDuplicateJFIF (m : SavedMarker) : Bool :=
  m.marker == JPEG_APP0 &&
  decide (5 ≤ m.data.length) &&
  m.data.getD 0 0 == 0x4A && m.data.getD 1 0 == 0x46 &&
  m.data.getD 2 0 == 0x49 && m.data.getD 3 0 == 0x46 &&
  m.data.getD 4 0 == 0x00

/-- The duplicate-Adobe test of `jcopy_markers_execute` (jpgicc.c lines
553-561): marker is APP0+14, `data_length >= 5`, and the payload starts with
`A d o b e`. -/
def isDuplicateAdobe (m : SavedMarker) : Bool :=
  m.marker == JPEG_APP0 + 14 &&
  decide (5 ≤ m.data.length) &&
  m.data.getD 0 0 == 0x41 && m.data.getD 1 0 == 0x64 &&
  m.data.getD 2 0 == 0x6F && m.data.getD 3 0 == 0x62 &&
  m.data.getD 4 0 == 0x65

/-- `jcopy_markers_execute` (jpgicc.c lines 531-566): walk the source marker
list in order; skip a duplicate JFIF marker when the destination writes its
own JFIF header, skip a duplicate Adobe marker when the destination writes
its own Adobe marker, and write every other marker unchanged. -/
def jcopy_markers_execute (flags : DestWriterFlags) : List SavedMarker → List SavedMarker
  | [] => []
  | m :: rest =>
    if flags.writeJFIFheader && isDuplicateJFIF m then
      jcopy_markers_execute flags rest
    else if flags.writeAdobeMarker && isDuplicateAdobe m then
      jcopy_markers_execute flags rest
    else
      m :: jcopy_markers_execute flags rest

/-- The drop condition as the claim words it: an APP0 marker whose payload
begins with the 5 bytes `J F I F 0x00` when the destination will write its
own JFIF header, or an APP14 marker whose payload begins with the 5 bytes
`A d o b e` when the destination will write its own Adobe marker. -/
def specDropsMarker (flags : DestWriterFlags) (m : SavedMarker) : Bool :=
  (flags.writeJFIFheader && m.marker == JPEG_APP0 &&
    m.data.take 5 == [0x4A, 0x46, 0x49, 0x46, 0x00]) ||
  (flags.writeAdobeMarker && m.marker == JPEG_APP0 + 14 &&
    m.data.take 5 == [0x41, 0x64, 0x6F, 0x62, 0x65])

theorem take5_eq_iff (l : List ℕ) (b0 b1 b2 b3 b4 : ℕ) :
    l.take 5 = [b0, b1, b2, b3, b4] ↔
      (5 ≤ l.length ∧ l.getD 0 0 = b0 ∧ l.getD 1 0 = b1 ∧ l.getD 2 0 = b2 ∧
        l.getD 3 0 = b3 ∧ l.getD 4 0 = b4) := by
  rcases l with _ | ⟨x0, _ | ⟨x1, _ | ⟨x2, _ | ⟨x3, _ | ⟨x4, rest⟩⟩⟩⟩⟩ <;>
    simp [List.getD]

/-- The byte-by-byte tests of the loop agree with the prefix formulation of
the claim. -/
theorem dropCond_eq (flags : DestWriterFlags) (m : SavedMarker) :
    ((flags.writeJFIFheader && isDuplicateJFIF m) ||
      (flags.writeAdobeMarker && isDuplicateAdobe m)) = specDropsMarker flags m := by
  rw [Bool.eq_iff_iff]
  simp only [Bool.or_eq_true, Bool.and_eq_true, beq_iff_eq, decide_eq_true_eq,
    isDuplicateJFIF, isDuplicateAdobe, specDropsMarker, take5_eq_iff]
  tauto

/-- C8: the marker copy step emits exactly the source markers, in order and
unchanged, minus those matching the claim's two drop conditions. -/
theorem jpgicc_marker_copy_filter (flags : DestWriterFlags)
    (markers : List SavedMarker) :
    jcopy_markers_execute flags markers =
      markers.filter fun m => !specDropsMarker flags m := by
  induction markers with
  | nil => rfl
  | cons m rest ih =>
    rw [jcopy_markers_execute, List.filter_cons, ← dropCond_eq flags m]
    cases hj : flags.writeJFIFheader && isDuplicateJFIF m <;>
      cases ha : flags.writeAdobeMarker && isDuplicateAdobe m <;>
      simp [hj, ha, ih]

/-- Modelled from the spec: the bit-packed pixel-format descriptor word (§6).
The `COLORSPACE_SH`/`CHANNELS_SH`/`BYTES_SH`/`EXTRA_SH`/`FLAVOR_SH` shift
macros live in `lcms2.h`, library code not under src/; the spec fixes only
that the fields occupy fixed non-overlapping bit ranges, self-consistent
across encode and decode.  We use the lcms2 offsets — bytes at bit 0
(factor 1), channels at bit 3 (factor 8), extra at bit 7 (factor 128),
flavor at bit 13 (factor 8192), color space at bit 16 (factor 65536) — with
the ORs written as sums, which coincide while the fields stay in range. -/
def packPixelWord (extra channels bytes flavor space : ℕ) : ℕ :=
  extra * 128 + channels * 8 + bytes + flavor * 8192 + space * 65536

/-- `T_COLORSPACE(w)`: the 5-bit color-space field at bit 16. -/
def T_COLORSPACE (w : ℕ) : ℕ := w / 65536 % 32

/-- Decoding the color-space field is exact while every field is in range. -/
theorem T_COLORSPACE_pack (extra channels bytes flavor space : ℕ)
    (he : extra ≤ 7) (hc : channels ≤ 15) (hb : bytes ≤ 7) (hf : flavor ≤ 1)
    (hs : space < 32) :
    T_COLORSPACE (packPixelWord extra channels bytes flavor space) = space := by
  unfold T_COLORSPACE packPixelWord
  omega

/-- Modelled from the spec: `_cmsICCcolorSpace` (lcms2 library code, not
under src/) maps each supported pixel-type code to its ICC color-space
signature; distinct supported codes receive distinct signatures. -/
def _cmsICCcolorSpace (n : ℕ) : Option IccColorSpace :=
  if n = PT_GRAY then some .grayData
  else if n = PT_RGB then some .rgbData
  else if n = PT_CMY then some .cmyData
  else if n = PT_CMYK then some .cmykData
  else if n = PT_YCbCr then some .yCbCrData
  else if n = PT_YUV then some .yuvData
  else if n = PT_Lab then some .labData
  else none

/-- The color-space compatibility gate of `TransformImage` (jpgicc.c lines
792-794): `if (cmsGetColorSpace(hIn) != _cmsICCcolorSpace(T_COLORSPACE(wInput)))
FatalError(...)`.  On error the program aborts, so no transform is built;
otherwise resolution proceeds. -/
def TransformImageColorSpaceGate (profileSpace : IccColorSpace) (wInput : ℕ) :
    Except String Unit :=
  if some profileSpace ≠ _cmsICCcolorSpace (T_COLORSPACE wInput) then
    .error "Input profile is not operating in proper color space"
  else .ok ()

/-- The color spaces `jpgicc` supports (the §3 colorSpace enum). -/
inductive SupportedSpace
  | gray
  | rgb
  | cmy
  | cmyk
  | lab
  | ycbcr
  | yuv
  deriving DecidableEq, Repr

/-- The lcms pixel-type code of a supported space. -/
def SupportedSpace.ptCode : SupportedSpace → ℕ
  | .gray => PT_GRAY
  | .rgb => PT_RGB
  | .cmy => PT_CMY
  | .cmyk => PT_CMYK
  | .lab => PT_Lab
  | .ycbcr => PT_YCbCr
  | .yuv => PT_YUV

/-- The ICC signature of a supported space, as `_cmsICCcolorSpace` assigns
it. -/
def SupportedSpace.icc : SupportedSpace → IccColorSpace
  | .gray => .grayData
  | .rgb => .rgbData
  | .cmy => .cmyData
  | .cmyk => .cmykData
  | .lab => .labData
  | .ycbcr => .yCbCrData
  | .yuv => .yuvData

theorem icc_of_ptCode (s : SupportedSpace) :
    _cmsICCcolorSpace s.ptCode = some s.icc := by
  cases s <;> rfl

theorem ptCode_lt_32 (s : SupportedSpace) : s.ptCode < 32 := by
  cases s <;> decide

theorem icc_injective (x y : SupportedSpace) : x.icc = y.icc → x = y := by
  cases x <;> cases y <;> decide

/-- C7: for every ordered pair of supported color spaces — profile space
`ps`, pixel-format space `fs` — and any in-range channel count, the gate
fails with the profile-mismatch fatal error exactly when the two spaces
differ, and passes exactly when they agree. -/
theorem jpgicc_colorspace_gate (ps fs : SupportedSpace) (channels : ℕ)
    (hch : channels ≤ 15) :
    (TransformImageColorSpaceGate ps.icc (packPixelWord 0 channels 1 0 fs.ptCode) =
        .error "Input profile is not operating in proper color space" ↔ ps ≠ fs) ∧
    (TransformImageColorSpaceGate ps.icc (packPixelWord 0 channels 1 0 fs.ptCode) =
        .ok () ↔ ps = fs) := by
  have ht := T_COLORSPACE_pack 0 channels 1 0 fs.ptCode (by norm_num) hch
    (by norm_num) (by norm_num) (ptCode_lt_32 fs)
  unfold TransformImageColorSpaceGate
  rw [ht, icc_of_ptCode fs]
  by_cases h : ps = fs
  · subst h
    simp
  · have hne : ps.icc ≠ fs.icc := fun hh => h (icc_injective ps fs hh)
    simp [h, hne]

/-- Witness for C7 at the concrete pair (Lab profile, RGB format, 3
channels): the gate rejects; and at (Lab, Lab, 3): the gate passes. -/
theorem jpgicc_colorspace_gate_witness :
    (3 ≤ 15) ∧
    (TransformImageColorSpaceGate SupportedSpace.lab.icc
        (packPixelWord 0 3 1 0 SupportedSpace.rgb.ptCode) =
        .error "Input profile is not operating in proper color space" ↔
      SupportedSpace.lab ≠ SupportedSpace.rgb) ∧
    (TransformImageColorSpaceGate SupportedSpace.lab.icc
        (packPixelWord 0 3 1 0 SupportedSpace.rgb.ptCode) = .ok () ↔
      SupportedSpace.lab = SupportedSpace.rgb) :=
  ⟨by norm_num, jpgicc_colorspace_gate SupportedSpace.lab SupportedSpace.rgb 3 (by norm_num)⟩

/-- `IsITUFax` (jpgicc.c lines 113-129): scans the saved markers for an APP1
marker with `data_length > 5` whose payload, read as a NUL-terminated C
string, compares equal to "G3FAX" (`strcmp(data, "G3FAX") == 0`: the bytes
before the first NUL are exactly `G 3 F A X`). -/
def IsITUFax (markers : List SavedMarker) : Bool :=
  markers.any fun m =>
    m.marker == JPEG_APP0 + 1 && decide (5 < m.data.length) &&
      m.data.takeWhile (fun b => b != 0) == [0x47, 0x33, 0x46, 0x41, 0x58]

/-- The `J_COLOR_SPACE` values of jpeglib that `GetInputPixelType`
inspects; `unknown` stands for every other value (the fatal default
branch). -/
inductive JColorSpace
  | grayscale
  | rgb
  | ycbcr
  | cmyk
  | ycck
  | unknown
  deriving DecidableEq, Repr

/-- `GetInputPixelType` (jpgicc.c lines 418-474): builds the packed input
pixel word — no extra channels, one byte per sample, channel count from the
decompressor, color space `PT_Lab` when the ITU fax marker is present and
otherwise derived from the JPEG color space (with chocolate flavor for
Adobe-inverted CMYK/YCCK); `none` models the
`FatalError("Unsupported color space")` default branch.  The function's
assignments to `Decompressor.out_color_space` are external-codec side
effects, not part of the returned descriptor. -/
def GetInputPixelType (markers : List SavedMarker) (jcs : JColorSpace)
    (sawAdobe : Bool) (numComponents : ℕ) : Option ℕ :=
  if IsITUFax markers then
    some (packPixelWord 0 numComponents 1 0 PT_Lab)
  else
    match jcs with
    | .grayscale => some (packPixelWord 0 numComponents 1 0 PT_GRAY)
    | .rgb => some (packPixelWord 0 numComponents 1 0 PT_RGB)
    | .ycbcr => some (packPixelWord 0 numComponents 1 0 PT_RGB)
    | .cmyk => some (packPixelWord 0 numComponents 1 (if sawAdobe then 1 else 0) PT_CMYK)
    | .ycck => some (packPixelWord 0 numComponents 1 (if sawAdobe then 1 else 0) PT_CMYK)
    | .unknown => none

/-- `toupper` on an ASCII codepoint. -/
def toUpperCode (n : ℕ) : ℕ := if 97 ≤ n ∧ n ≤ 122 then n - 32 else n

/-- Modelled from the spec: `cmsstrcasecmp` (lcms utils code, not under
src/utils/jpgicc) compares two strings case-insensitively character by
character via `toupper`; this is its equality outcome. -/
def cmsstrcaseEq (a b : String) : Bool :=
  a.data.map (fun c => toUpperCode c.toNat) ==
    b.data.map (fun c => toUpperCode c.toNat)

/-- How `TransformImage` can obtain a profile handle. -/
inductive ResolvedProfile
  | embeddedProfile
  | ituForward
  | ituInverse
  | stock (name : Option String)
  deriving DecidableEq, Repr

/-- Input-profile resolution of `TransformImage` (jpgicc.c lines 748-776),
non-device-link path: use the embedded profile when present and not ignored;
otherwise default a `NULL` profile argument to `"*Lab"` when the input word's
color space is `PT_Lab`; then `"*lab"` (case-insensitive) selects
`CreateITU2PCS_ICC`, anything else goes to `OpenStockProfile` (`none` being
the stock default). -/
def resolveInputProfile (ignoreEmbedded hasEmbedded : Bool)
    (cDefInpProf : Option String) (wInput : ℕ) : ResolvedProfile :=
  if !ignoreEmbedded && hasEmbedded then .embeddedProfile
  else
    match (if cDefInpProf = none ∧ T_COLORSPACE wInput = PT_Lab
           then some "*Lab" else cDefInpProf) with
    | some s => if cmsstrcaseEq s "*lab" then .ituForward else .stock (some s)
    | none => .stock none

/-- Output-profile resolution of `TransformImage` (jpgicc.c lines 778-781):
`"*lab"` (case-insensitive) selects `CreatePCS2ITU_ICC`, anything else goes
to `OpenStockProfile`. -/
def resolveOutputProfile (cOutProf : Option String) : ResolvedProfile :=
  match cOutProf with
  | some s => if cmsstrcaseEq s "*lab" then .ituInverse else .stock (some s)
  | none => .stock none

theorem starLab_caseEq : cmsstrcaseEq "*Lab" "*lab" = true := by decide

/-- With no embedded profile in effect and no configured input profile, the
resolution reduces to the Lab test on the pixel word. -/
theorem resolveInput_no_embedded (ignoreEmbedded hasEmbedded : Bool)
    (hemb : (!ignoreEmbedded && hasEmbedded) = false) (w : ℕ) :
    resolveInputProfile ignoreEmbedded hasEmbedded none w =
      (if T_COLORSPACE w = PT_Lab then ResolvedProfile.ituForward
       else ResolvedProfile.stock none) := by
  by_cases h : T_COLORSPACE w = PT_Lab <;>
    simp [resolveInputProfile, hemb, h, starLab_caseEq]

/-- C9: with no embedded profile used and no explicitly configured input
profile, the input resolves to the forward virtual profile iff the input
format's color space is Lab and to the stock default otherwise; a
fax-identified source yields a Lab pixel word, so with no explicit profiles
the input profile is the forward virtual profile and the output profile is
the stock default. -/
theorem jpgicc_profile_resolution
    (ignoreEmbedded hasEmbedded : Bool) (wInput : ℕ)
    (markers : List SavedMarker) (jcs : JColorSpace) (sawAdobe : Bool)
    (numComponents : ℕ)
    (hemb : (!ignoreEmbedded && hasEmbedded) = false)
    (hfax : IsITUFax markers = true) (hch : numComponents ≤ 15) :
    (resolveInputProfile ignoreEmbedded hasEmbedded none wInput =
        ResolvedProfile.ituForward ↔ T_COLORSPACE wInput = PT_Lab) ∧
    (T_COLORSPACE wInput ≠ PT_Lab →
      resolveInputProfile ignoreEmbedded hasEmbedded none wInput =
        ResolvedProfile.stock none) ∧
    (∃ w, GetInputPixelType markers jcs sawAdobe numComponents = some w ∧
      T_COLORSPACE w = PT_Lab ∧
      resolveInputProfile ignoreEmbedded hasEmbedded none w =
        ResolvedProfile.ituForward) ∧
    resolveOutputProfile none = ResolvedProfile.stock none := by
  have hlab : T_COLORSPACE (packPixelWord 0 numComponents 1 0 PT_Lab) = PT_Lab :=
    T_COLORSPACE_pack 0 numComponents 1 0 PT_Lab (by norm_num) hch
      (by norm_num) (by norm_num) (by decide)
  refine ⟨?_, ?_, ?_, rfl⟩
  · rw [resolveInput_no_embedded ignoreEmbedded hasEmbedded hemb]
    by_cases h : T_COLORSPACE wInput = PT_Lab <;> simp [h]
  · intro h
    rw [resolveInput_no_embedded ignoreEmbedded hasEmbedded hemb]
    simp [h]
  · refine ⟨packPixelWord 0 numComponents 1 0 PT_Lab, ?_, hlab, ?_⟩
    · simp [GetInputPixelType, hfax]
    · rw [resolveInput_no_embedded ignoreEmbedded hasEmbedded hemb]
      simp [hlab]

/-- Witness for C9: no flags, a source carrying the G3FAX APP1 marker, a
YCbCr JPEG with 3 components, no explicit profiles. -/
theorem jpgicc_profile_resolution_witness :
    ((!false && false) = false ∧
      IsITUFax [⟨JPEG_APP0 + 1, G3FAXStandardPayload⟩] = true ∧ 3 ≤ 15) ∧
    ((resolveInputProfile false false none (packPixelWord 0 3 1 0 PT_Lab) =
        ResolvedProfile.ituForward ↔
        T_COLORSPACE (packPixelWord 0 3 1 0 PT_Lab) = PT_Lab) ∧
      (T_COLORSPACE (packPixelWord 0 3 1 0 PT_Lab) ≠ PT_Lab →
        resolveInputProfile false false none (packPixelWord 0 3 1 0 PT_Lab) =
          ResolvedProfile.stock none) ∧
      (∃ w, GetInputPixelType [⟨JPEG_APP0 + 1, G3FAXStandardPayload⟩]
            JColorSpace.ycbcr false 3 = some w ∧
        T_COLORSPACE w = PT_Lab ∧
        resolveInputProfile false false none w = ResolvedProfile.ituForward) ∧
      resolveOutputProfile none = ResolvedProfile.stock none) :=
  ⟨⟨rfl, by decide, by norm_num⟩,
   jpgicc_profile_resolution false false (packPixelWord 0 3 1 0 PT_Lab)
     [⟨JPEG_APP0 + 1, G3FAXStandardPayload⟩] JColorSpace.ycbcr false 3
     rfl (by decide) (by norm_num)⟩
